import Mathlib

/-
Shallow embedding of `src/src/lib/parser.ts` (node-alivecor-ecg), a decoder for
the AliveCor ECG binary container format built on the `binary-parser` library.

Modelling conventions:
* A byte buffer is a `List Nat` (each entry a byte value 0..255).
* The `binary-parser` library throws a `RangeError` when a fixed-width integer
  read (`readUInt8/16/32`, `readInt16LE`, `DataView.get*`) would run past the
  end of the buffer, while `Buffer.slice`/`subarray` and `Buffer.toString`
  clamp at the end of the buffer without throwing.  Decode failures are
  modelled as a closed error type `DecodeError`; an out-of-bounds read is
  classified by the decoder in which it occurs (container reader →
  `truncatedBlock`, format decoder → `malformedFormatBlock`, signal decoder →
  `malformedSignalBlock`, beat-mark decoder → `malformedAnnotationBlock`),
  and the `throw new Error(...)` sites of the source map to their named
  errors (`invalidSignature`, `unsupportedVersion`, `missingInfoBlock`,
  `missingFormatBlock`, `unsupportedFormat`).
* The source's `fileParser` block loop (`readUntil: 'eof'`) advances the
  cursor by at least 12 bytes per block; it is embedded with a structural
  fuel parameter initialised to the buffer length, which therefore never
  runs out before the loop condition `offset < length` fails.
* Fields whose source name ends in the word "annotation" are shortened to
  `annot` (`AliveCorEcgAnnot`, record field `annot`); everything else keeps
  the source's names.
-/

deriving instance DecidableEq for Except

namespace AliveCor

/-- A byte buffer: a list of byte values. -/
abbrev Bytes := List Nat

/-- Little-endian 16-bit unsigned value from two bytes. -/
def u16le2 (b0 b1 : Nat) : Nat := b0 + 256 * b1

/-- Little-endian 32-bit unsigned value from four bytes. -/
def u32le4 (b0 b1 b2 b3 : Nat) : Nat :=
  b0 + 256 * b1 + 65536 * b2 + 16777216 * b3

/-- Signed 16-bit little-endian value from two bytes (`readInt16LE`). -/
def int16FromLE (b0 b1 : Nat) : Int :=
  let v := u16le2 b0 b1
  if v < 32768 then (v : Int) else (v : Int) - 65536

/-- Closed set of decode failures of the source (explicit `throw` sites plus
the `binary-parser` out-of-bounds read exceptions, classified by the decoder
in which they occur).  `malformedInfoBlock` is named by the design documents
but, as proved below, is never produced: fixed-length string reads clamp. -/
inductive DecodeError where
  | invalidSignature
  | unsupportedVersion
  | truncatedBlock
  | missingFormatBlock
  | unsupportedFormat
  | missingInfoBlock
  | malformedInfoBlock
  | malformedFormatBlock
  | malformedSignalBlock
  | malformedAnnotationBlock
  deriving DecidableEq, Repr

/-- `AliveCorEcgInfo`: seven text fields, kept as byte lists after
null-stripping and whitespace trimming. -/
structure AliveCorEcgInfo where
  dateRecorded : Bytes
  recordingUuid : Bytes
  mobilePhoneUuid : Bytes
  mobilePhoneModel : Bytes
  recorderSoftware : Bytes
  recorderHardware : Bytes
  deviceData : Bytes
  deriving DecidableEq, Repr

/-- `AliveCorEcgFormat`: note `polarity` and `mainsFrequency` are numbers in
the source (`polarity` is the raw bit; `mainsFrequency` is mapped to 50/60 by
its formatter); only the five filter flags go through `convertToBoolean`. -/
structure AliveCorEcgFormat where
  ecgFormat : Nat
  samplingRateHz : Nat
  amplitudeResolutionNV : Nat
  polarity : Nat
  mainsFrequency : Nat
  mainsFilter : Bool
  lowPassFilter : Bool
  baseLineFilter : Bool
  notchMainsFilter : Bool
  enhancedFilter : Bool
  unused : Nat
  reserved : Nat
  deriving DecidableEq, Repr

/-- One tick record of the `ann ` block. -/
structure EcgTick where
  offset : Nat
  beatType : Nat
  deriving DecidableEq, Repr

/-- `AliveCorEcgAnnotation` of the source (name shortened to `Annot`). -/
structure AliveCorEcgAnnot where
  tickCountFrequencyHz : Nat
  ticks : List EcgTick
  deriving DecidableEq, Repr

/-- `AliveCorEcgLeads`: absent object keys are `none`. -/
structure AliveCorEcgLeads where
  leadI : Option (List Int)
  leadII : Option (List Int)
  leadIII : Option (List Int)
  aVR : Option (List Int)
  aVL : Option (List Int)
  aVF : Option (List Int)
  deriving DecidableEq, Repr

/-- `AliveCorEcg`: the decoded record (source field `annotation` is the
field `annot` here). -/
structure AliveCorEcg where
  fileVersion : String
  info : AliveCorEcgInfo
  format : AliveCorEcgFormat
  leads : AliveCorEcgLeads
  annot : Option AliveCorEcgAnnot
  deriving DecidableEq, Repr

/-- `AliveCorBlock`: one container block. -/
structure AliveCorBlock where
  identifier : Bytes
  length : Nat
  contents : Bytes
  checksum : Nat
  deriving DecidableEq, Repr

/-- `AliveCorFile`: the parsed container. -/
structure AliveCorFile where
  signature : Bytes
  version : Nat
  blocks : List AliveCorBlock
  deriving DecidableEq, Repr

/-- ASCII whitespace recognised by the embedded `String.prototype.trim`. -/
def isSpaceByte (c : Nat) : Bool :=
  c == 9 || c == 10 || c == 11 || c == 12 || c == 13 || c == 32

/-- `trimString` of the source: strip leading and trailing whitespace. -/
def trimBytes (l : Bytes) : Bytes :=
  ((l.dropWhile isSpaceByte).reverse.dropWhile isSpaceByte).reverse

/-- One fixed-width string field of `infoBlockParser`: take `len` bytes at
`off` (clamped at the end of the buffer, like `Buffer.toString`), strip all
null bytes (`stripNull`), then trim (`formatter: trimString`). -/
def infoField (b : Bytes) (off len : Nat) : Bytes :=
  trimBytes (((b.drop off).take len).filter (fun c => c ≠ 0))

/-- `infoBlockParser`: seven fixed-width fields at offsets
0,32,72,116,148,180,212 with lengths 32,40,44,32,32,32,52.  Total function:
fixed-length string reads clamp at the end of the buffer, so a short content
buffer yields truncated or empty fields rather than a failure. -/
def infoBlockParser (b : Bytes) : AliveCorEcgInfo :=
  { dateRecorded := infoField b 0 32
    recordingUuid := infoField b 32 40
    mobilePhoneUuid := infoField b 72 44
    mobilePhoneModel := infoField b 116 32
    recorderSoftware := infoField b 148 32
    recorderHardware := infoField b 180 32
    deviceData := infoField b 212 52 }

/-- `formatBlockParser`: u8 ecgFormat, u16 samplingRateHz, u16
amplitudeResolutionNV, one byte of eight 1-bit fields read
least-significant-bit first (little-endian bit clusters,
`polarity, mainsFrequency, mainsFilter, lowPassFilter, baseLineFilter,
notchMainsFilter, enhancedFilter, unused`), u16 reserved — 8 bytes in all;
any integer read past the end of the content throws in `binary-parser`
(`malformedFormatBlock`). -/
def formatBlockParser (b : Bytes) : Except DecodeError AliveCorEcgFormat :=
  if 8 ≤ b.length then
    let flags := b.getD 5 0
    .ok
      { ecgFormat := b.getD 0 0
        samplingRateHz := u16le2 (b.getD 1 0) (b.getD 2 0)
        amplitudeResolutionNV := u16le2 (b.getD 3 0) (b.getD 4 0)
        polarity := flags % 2
        mainsFrequency := if (flags / 2) % 2 = 1 then 60 else 50
        mainsFilter := (flags / 4) % 2 == 1
        lowPassFilter := (flags / 8) % 2 == 1
        baseLineFilter := (flags / 16) % 2 == 1
        notchMainsFilter := (flags / 32) % 2 == 1
        enhancedFilter := (flags / 64) % 2 == 1
        unused := (flags / 128) % 2
        reserved := u16le2 (b.getD 6 0) (b.getD 7 0) }
  else .error .malformedFormatBlock

/-- `leadBlockParser`: `int16le` array read until end of buffer.  The loop
reads two bytes per sample while the cursor is before the end; a final odd
byte makes `readInt16LE` throw (`malformedSignalBlock`). -/
def leadBlockParser : Bytes → Except DecodeError (List Int)
  | [] => .ok []
  | [_] => .error .malformedSignalBlock
  | b0 :: b1 :: rest => (leadBlockParser rest).map (int16FromLE b0 b1 :: ·)

/-- Tick array of `annotationBlockParser`: 6-byte records (u32 offset, u16
beatType) read until end of buffer; a trailing group of 1..5 bytes makes an
integer read throw (`malformedAnnotationBlock`). -/
def annTicksParser : Bytes → Except DecodeError (List EcgTick)
  | [] => .ok []
  | b0 :: b1 :: b2 :: b3 :: b4 :: b5 :: rest =>
    (annTicksParser rest).map (⟨u32le4 b0 b1 b2 b3, u16le2 b4 b5⟩ :: ·)
  | _ => .error .malformedAnnotationBlock

/-- `annotationBlockParser`: u32 tickCountFrequencyHz then the tick array. -/
def annBlockParser (b : Bytes) : Except DecodeError AliveCorEcgAnnot :=
  match b with
  | f0 :: f1 :: f2 :: f3 :: rest =>
    (annTicksParser rest).map (fun ts => ⟨u32le4 f0 f1 f2 f3, ts⟩)
  | _ => .error .malformedAnnotationBlock

/-- `blocks.find((b) => b.identifier === tag)`: first block whose 4-byte
identifier equals the tag (byte-for-byte; the tags compared against are
ASCII, for which UTF-8 string equality coincides with byte equality). -/
def findBlock (blocks : List AliveCorBlock) (tag : Bytes) : Option AliveCorBlock :=
  blocks.find? (fun b => b.identifier == tag)

/-- Identifier `info`. -/
def infoTag : Bytes := [0x69, 0x6E, 0x66, 0x6F]
/-- Identifier `fmt ` (trailing space). -/
def fmtTag : Bytes := [0x66, 0x6D, 0x74, 0x20]
/-- Identifier `ann ` (trailing space). -/
def annTag : Bytes := [0x61, 0x6E, 0x6E, 0x20]
/-- Identifier `ecg ` (lead I, trailing space). -/
def ecgTag : Bytes := [0x65, 0x63, 0x67, 0x20]
/-- Identifier `ecg2` (lead II). -/
def ecg2Tag : Bytes := [0x65, 0x63, 0x67, 0x32]
/-- Identifier `ecg3` (lead III). -/
def ecg3Tag : Bytes := [0x65, 0x63, 0x67, 0x33]
/-- Identifier `ecg4` (aVR). -/
def ecg4Tag : Bytes := [0x65, 0x63, 0x67, 0x34]
/-- Identifier `ecg5` (aVL). -/
def ecg5Tag : Bytes := [0x65, 0x63, 0x67, 0x35]
/-- Identifier `ecg6` (aVF). -/
def ecg6Tag : Bytes := [0x65, 0x63, 0x67, 0x36]

/-- The nine block identifiers the decoder looks up. -/
def recognizedTags : List Bytes :=
  [infoTag, fmtTag, annTag, ecgTag, ecg2Tag, ecg3Tag, ecg4Tag, ecg5Tag, ecg6Tag]

/-- The `blockParser` loop of `fileParser` (`readUntil: 'eof'`): while bytes
remain, read a 4-byte identifier (clamped), a u32 length, `length` content
bytes (clamped, cursor advanced by the declared length), and a u32 checksum;
an out-of-bounds u32 read throws (`truncatedBlock`).  `fuel` is a structural
bound on the number of blocks; every block consumes at least 12 bytes, so a
fuel equal to the buffer length never runs out before the loop ends. -/
def parseBlocksGo : Nat → Bytes → Except DecodeError (List AliveCorBlock)
  | 0, _ => .ok []
  | _ + 1, [] => .ok []
  | fuel + 1, rest@(_ :: _) =>
    match rest.drop 4 with
    | l0 :: l1 :: l2 :: l3 :: afterLen =>
      let len := u32le4 l0 l1 l2 l3
      match afterLen.drop len with
      | c0 :: c1 :: c2 :: c3 :: afterChk =>
        (parseBlocksGo fuel afterChk).map
          (fun bs => ⟨rest.take 4, len, afterLen.take len, u32le4 c0 c1 c2 c3⟩ :: bs)
      | _ => .error .truncatedBlock
    | _ => .error .truncatedBlock

/-- `fileParser.parse(input)`: 8 signature bytes (clamped slice), u32
version (throws if the input is shorter than 12 bytes), then the block
loop. -/
def fileParser (input : Bytes) : Except DecodeError AliveCorFile :=
  match input.drop 8 with
  | v0 :: v1 :: v2 :: v3 :: _ =>
    (parseBlocksGo input.length (input.drop 12)).map
      (fun bs => ⟨input.take 8, u32le4 v0 v1 v2 v3, bs⟩)
  | _ => .error .truncatedBlock

/-- The signature bytes `41 4C 49 56 45 00 00 00` ("ALIVE" + three zeros). -/
def signatureBytes : Bytes := [0x41, 0x4C, 0x49, 0x56, 0x45, 0x00, 0x00, 0x00]

/-- `parseFileWithBufferBlocks`: run `fileParser`, then check the signature
(`invalidSignature`), then the version `4` (`unsupportedVersion`).  Note the
whole container is parsed before either check runs. -/
def parseFileWithBufferBlocks (input : Bytes) : Except DecodeError AliveCorFile :=
  match fileParser input with
  | .error e => .error e
  | .ok parsed =>
    if parsed.signature ≠ signatureBytes then .error .invalidSignature
    else if parsed.version ≠ 4 then .error .unsupportedVersion
    else .ok parsed

/-- `parseInfoBlock`: first `info` block (`missingInfoBlock` when absent);
its decoder is total. -/
def parseInfoBlock (blocks : List AliveCorBlock) : Except DecodeError AliveCorEcgInfo :=
  match findBlock blocks infoTag with
  | none => .error .missingInfoBlock
  | some b => .ok (infoBlockParser b.contents)

/-- `parseFormatBlock`: first `fmt ` block (`missingFormatBlock` when
absent), decoded by `formatBlockParser`. -/
def parseFormatBlock (blocks : List AliveCorBlock) : Except DecodeError AliveCorEcgFormat :=
  match findBlock blocks fmtTag with
  | none => .error .missingFormatBlock
  | some b => formatBlockParser b.contents

/-- `parseAnnotationBlock`: first `ann ` block, optional (absence is
`none`, not an error). -/
def parseAnnotationBlock (blocks : List AliveCorBlock) :
    Except DecodeError (Option AliveCorEcgAnnot) :=
  match findBlock blocks annTag with
  | none => .ok none
  | some b => (annBlockParser b.contents).map some

/-- `parseLeadBlock`: first block with the given lead tag, optional.  The
source's `.filter(({ data }) => data)` keeps an empty array (truthy in the
host language) and drops only `undefined`, i.e. exactly the `Option`. -/
def parseLeadBlock (blocks : List AliveCorBlock) (tag : Bytes) :
    Except DecodeError (Option (List Int)) :=
  match findBlock blocks tag with
  | none => .ok none
  | some b => (leadBlockParser b.contents).map some

/-- The lead-assembly `map`/`filter`/`reduce` of `parse`: look up the six
lead tags in their fixed order, failing on the first lead whose block is
present but malformed. -/
def assembleLeads (blocks : List AliveCorBlock) : Except DecodeError AliveCorEcgLeads :=
  match parseLeadBlock blocks ecgTag with
  | .error e => .error e
  | .ok l1 =>
    match parseLeadBlock blocks ecg2Tag with
    | .error e => .error e
    | .ok l2 =>
      match parseLeadBlock blocks ecg3Tag with
      | .error e => .error e
      | .ok l3 =>
        match parseLeadBlock blocks ecg4Tag with
        | .error e => .error e
        | .ok l4 =>
          match parseLeadBlock blocks ecg5Tag with
          | .error e => .error e
          | .ok l5 =>
            match parseLeadBlock blocks ecg6Tag with
            | .error e => .error e
            | .ok l6 => .ok ⟨l1, l2, l3, l4, l5, l6⟩

/-- The body of `parse` after the container stage, in the source's
evaluation order: info, format, optional beat marks, then the
`ecgFormat !== 1` check (`unsupportedFormat`), then the leads. -/
def assembleBlocks (blocks : List AliveCorBlock) : Except DecodeError AliveCorEcg :=
  match parseInfoBlock blocks with
  | .error e => .error e
  | .ok info =>
    match parseFormatBlock blocks with
    | .error e => .error e
    | .ok format =>
      match parseAnnotationBlock blocks with
      | .error e => .error e
      | .ok ann =>
        if format.ecgFormat ≠ 1 then .error .unsupportedFormat
        else
          match assembleLeads blocks with
          | .error e => .error e
          | .ok leads => .ok ⟨"1.6", info, format, leads, ann⟩

/-- `parse(input)`: the single entry point of the source. -/
def parse (input : Bytes) : Except DecodeError AliveCorEcg :=
  match parseFileWithBufferBlocks input with
  | .error e => .error e
  | .ok parsed => assembleBlocks parsed.blocks

/-! Specification-side definitions, written from the design documents, to be
compared against the decoders embedded from the source. -/

/-- The ordered sequence of signed 16-bit little-endian integers of a byte
buffer, two bytes per sample (specification of the signal decoder's output on
even-length content). -/
def int16SeqLE : Bytes → List Int
  | b0 :: b1 :: rest => int16FromLE b0 b1 :: int16SeqLE rest
  | _ => []

/-- The ordered sequence of 6-byte tick records (u32 little-endian offset,
u16 little-endian beatType) of a byte buffer (specification of the beat-mark
decoder's output on content whose length is a multiple of 6). -/
def annTickSeq : Bytes → List EcgTick
  | b0 :: b1 :: b2 :: b3 :: b4 :: b5 :: rest =>
    ⟨u32le4 b0 b1 b2 b3, u16le2 b4 b5⟩ :: annTickSeq rest
  | _ => []

/-- Truthiness of a number in the host language: any nonzero value. -/
abbrev jsTruthy (n : Nat) : Prop := n ≠ 0

/-! Concrete byte buffers used by the witnesses and counterexamples. -/

/-- The file of the block round-trip test: signature, version 4, a `fmt `
block (ecgFormat 1, 300 Hz, 1000 nV, flags byte 0x05, reserved 0), an `info`
block of 264 null-padded bytes, and an `ecg ` block with samples
`64 00 38 FF 2C 01`; all checksums 0. -/
def c1File : Bytes :=
  signatureBytes ++ [4, 0, 0, 0]
  ++ fmtTag ++ [8, 0, 0, 0] ++ [1, 0x2C, 0x01, 0xE8, 0x03, 0x05, 0, 0] ++ [0, 0, 0, 0]
  ++ infoTag ++ [0x08, 0x01, 0, 0] ++ List.replicate 264 0 ++ [0, 0, 0, 0]
  ++ ecgTag ++ [6, 0, 0, 0] ++ [0x64, 0x00, 0x38, 0xFF, 0x2C, 0x01] ++ [0, 0, 0, 0]

/-- The record `parse` produces for `c1File`. -/
def c1Record : AliveCorEcg :=
  ⟨"1.6", ⟨[], [], [], [], [], [], []⟩,
    ⟨1, 300, 1000, 1, 50, true, false, false, false, false, 0, 0⟩,
    ⟨some [100, -200, 300], none, none, none, none, none⟩, none⟩

/-- Eight wrong signature bytes, a valid version field, and one junk byte
that does not form a well-formed block. -/
def c2BadTail : Bytes := List.replicate 8 0 ++ [4, 0, 0, 0] ++ [0x78]

/-- Eight wrong signature bytes, a valid version field, and an empty (hence
well-formed) block sequence. -/
def c2WellFormed : Bytes := List.replicate 8 0 ++ [4, 0, 0, 0]

/-- A container-valid file whose only block is a `fmt ` block with
ecgFormat 2; there is no `info` block. -/
def c3File : Bytes :=
  signatureBytes ++ [4, 0, 0, 0]
  ++ fmtTag ++ [8, 0, 0, 0] ++ [2, 0x2C, 0x01, 0xE8, 0x03, 0x05, 0, 0] ++ [0, 0, 0, 0]

/-- The container value `fileParser` produces for `c3File`. -/
def c3RawFile : AliveCorFile :=
  ⟨signatureBytes, 4, [⟨fmtTag, 8, [2, 44, 1, 232, 3, 5, 0, 0], 0⟩]⟩

/-- The format record of `c3File`'s `fmt ` block (ecgFormat 2). -/
def c3Format : AliveCorEcgFormat :=
  ⟨2, 300, 1000, 1, 50, true, false, false, false, false, 0, 0⟩

/-- A container-valid file with a valid `fmt ` block and an `info` block of
zero-length content (shorter than 264 bytes). -/
def c4File : Bytes :=
  signatureBytes ++ [4, 0, 0, 0]
  ++ fmtTag ++ [8, 0, 0, 0] ++ [1, 0x2C, 0x01, 0xE8, 0x03, 0x05, 0, 0] ++ [0, 0, 0, 0]
  ++ infoTag ++ [0, 0, 0, 0] ++ [0, 0, 0, 0]

/-- The container value `fileParser` produces for `c4File`. -/
def c4RawFile : AliveCorFile :=
  ⟨signatureBytes, 4,
    [⟨fmtTag, 8, [1, 44, 1, 232, 3, 5, 0, 0], 0⟩, ⟨infoTag, 0, [], 0⟩]⟩

/-- The format record of a valid `fmt ` block with ecgFormat 1, 300 Hz,
1000 nV, flags byte 0x05 and reserved 0. -/
def fmt1Record : AliveCorEcgFormat :=
  ⟨1, 300, 1000, 1, 50, true, false, false, false, false, 0, 0⟩

/-- The record `parse` produces for `c4File`: the short `info` block decodes
to empty fields, and no leads are present. -/
def c4Record : AliveCorEcg :=
  ⟨"1.6", ⟨[], [], [], [], [], [], []⟩, fmt1Record,
    ⟨none, none, none, none, none, none⟩, none⟩

/-- `c4File` extended with an `ecg ` block of zero-length content. -/
def c10File : Bytes :=
  c4File ++ ecgTag ++ [0, 0, 0, 0] ++ [0, 0, 0, 0]

/-- The container value `fileParser` produces for `c10File`. -/
def c10RawFile : AliveCorFile :=
  ⟨signatureBytes, 4,
    [⟨fmtTag, 8, [1, 44, 1, 232, 3, 5, 0, 0], 0⟩, ⟨infoTag, 0, [], 0⟩,
      ⟨ecgTag, 0, [], 0⟩]⟩

/-- A block with an identifier (`xtra`) that no decoder recognises. -/
def xtraBlock : AliveCorBlock := ⟨[0x78, 0x74, 0x72, 0x61], 2, [7, 7], 0⟩

/-! Helper lemmas. -/

theorem except_map_error_iff {ε α β : Type} (f : α → β) (x : Except ε α) (e : ε) :
    x.map f = .error e ↔ x = .error e := by
  cases x <;> simp [Except.map]

theorem except_map_ok_iff {ε α β : Type} (f : α → β) (x : Except ε α) (y : β) :
    x.map f = .ok y ↔ ∃ a, x = .ok a ∧ f a = y := by
  cases x <;> simp [Except.map]

theorem findBlock_skip (l₁ l₂ : List AliveCorBlock) (x : AliveCorBlock) (tag : Bytes)
    (h : x.identifier ≠ tag) :
    findBlock (l₁ ++ x :: l₂) tag = findBlock (l₁ ++ l₂) tag := by
  have hx : (x.identifier == tag) = false := by simp [h]
  induction l₁ with
  | nil => simp [findBlock, List.find?, hx]
  | cons a t ih =>
    simp only [List.cons_append, findBlock, List.find?] at *
    cases a.identifier == tag <;> simp [ih]

theorem leadBlockParser_error : ∀ (l : Bytes) (e : DecodeError),
    leadBlockParser l = .error e → e = .malformedSignalBlock
  | [], _, h => by simp [leadBlockParser] at h
  | [_], e, h => by
    simp only [leadBlockParser, Except.error.injEq] at h
    exact h.symm
  | _ :: _ :: rest, e, h => by
    simp only [leadBlockParser, except_map_error_iff] at h
    exact leadBlockParser_error rest e h

theorem annTicksParser_error : ∀ (l : Bytes) (e : DecodeError),
    annTicksParser l = .error e → e = .malformedAnnotationBlock
  | [], _, h => by simp [annTicksParser] at h
  | _ :: _ :: _ :: _ :: _ :: _ :: rest, e, h => by
    simp only [annTicksParser, except_map_error_iff] at h
    exact annTicksParser_error rest e h
  | [_], e, h => by
    simp only [annTicksParser, Except.error.injEq] at h; exact h.symm
  | [_, _], e, h => by
    simp only [annTicksParser, Except.error.injEq] at h; exact h.symm
  | [_, _, _], e, h => by
    simp only [annTicksParser, Except.error.injEq] at h; exact h.symm
  | [_, _, _, _], e, h => by
    simp only [annTicksParser, Except.error.injEq] at h; exact h.symm
  | [_, _, _, _, _], e, h => by
    simp only [annTicksParser, Except.error.injEq] at h; exact h.symm

theorem annBlockParser_error (l : Bytes) (e : DecodeError)
    (h : annBlockParser l = .error e) : e = .malformedAnnotationBlock := by
  unfold annBlockParser at h
  split at h
  · rw [except_map_error_iff] at h
    exact annTicksParser_error _ e h
  · simp only [Except.error.injEq] at h; exact h.symm

theorem formatBlockParser_error (l : Bytes) (e : DecodeError)
    (h : formatBlockParser l = .error e) : e = .malformedFormatBlock := by
  unfold formatBlockParser at h
  split at h
  · simp at h
  · simp only [Except.error.injEq] at h; exact h.symm

theorem parseBlocksGo_error : ∀ (fuel : Nat) (l : Bytes) (e : DecodeError),
    parseBlocksGo fuel l = .error e → e = .truncatedBlock
  | 0, l, e, h => by simp [parseBlocksGo] at h
  | _ + 1, [], e, h => by simp [parseBlocksGo] at h
  | fuel + 1, a :: rest, e, h => by
    simp only [parseBlocksGo] at h
    split at h
    · split at h
      · rw [except_map_error_iff] at h
        exact parseBlocksGo_error fuel _ e h
      · simp only [Except.error.injEq] at h; exact h.symm
    · simp only [Except.error.injEq] at h; exact h.symm

theorem fileParser_error (input : Bytes) (e : DecodeError)
    (h : fileParser input = .error e) : e = .truncatedBlock := by
  unfold fileParser at h
  split at h
  · rw [except_map_error_iff] at h
    exact parseBlocksGo_error _ _ e h
  · simp only [Except.error.injEq] at h; exact h.symm

theorem fileParser_ok (input : Bytes) (f : AliveCorFile)
    (h : fileParser input = .ok f) : f.signature = input.take 8 := by
  unfold fileParser at h
  split at h
  · rw [except_map_ok_iff] at h
    obtain ⟨bs, _, hf⟩ := h
    subst hf; rfl
  · simp at h

theorem parseFileWithBufferBlocks_ok (input : Bytes) (f : AliveCorFile)
    (h : parseFileWithBufferBlocks input = .ok f) :
    fileParser input = .ok f ∧ f.signature = signatureBytes ∧ f.version = 4 := by
  unfold parseFileWithBufferBlocks at h
  split at h
  · simp at h
  · rename_i parsed hp
    split at h
    · simp at h
    · split at h
      · simp at h
      · simp only [Except.ok.injEq] at h
        subst h
        refine ⟨hp, ?_, ?_⟩ <;> simp_all

theorem parseFileWithBufferBlocks_error (input : Bytes) (e : DecodeError)
    (h : parseFileWithBufferBlocks input = .error e) :
    e = .truncatedBlock ∨ e = .invalidSignature ∨ e = .unsupportedVersion := by
  unfold parseFileWithBufferBlocks at h
  cases hp : fileParser input with
  | error e1 =>
    simp only [hp, Except.error.injEq] at h
    subst h
    exact Or.inl (fileParser_error input _ hp)
  | ok parsed =>
    simp only [hp] at h
    split at h
    · simp only [Except.error.injEq] at h
      exact Or.inr (Or.inl h.symm)
    · split at h
      · simp only [Except.error.injEq] at h
        exact Or.inr (Or.inr h.symm)
      · simp at h

theorem parseInfoBlock_error (blocks : List AliveCorBlock) (e : DecodeError)
    (h : parseInfoBlock blocks = .error e) : e = .missingInfoBlock := by
  unfold parseInfoBlock at h
  split at h
  · simp only [Except.error.injEq] at h; exact h.symm
  · simp at h

theorem parseFormatBlock_error (blocks : List AliveCorBlock) (e : DecodeError)
    (h : parseFormatBlock blocks = .error e) :
    e = .missingFormatBlock ∨ e = .malformedFormatBlock := by
  unfold parseFormatBlock at h
  split at h
  · simp only [Except.error.injEq] at h; exact Or.inl h.symm
  · exact Or.inr (formatBlockParser_error _ e h)

theorem parseAnnotationBlock_error (blocks : List AliveCorBlock) (e : DecodeError)
    (h : parseAnnotationBlock blocks = .error e) : e = .malformedAnnotationBlock := by
  unfold parseAnnotationBlock at h
  split at h
  · simp at h
  · rw [except_map_error_iff] at h
    exact annBlockParser_error _ e h

theorem parseLeadBlock_error (blocks : List AliveCorBlock) (tag : Bytes) (e : DecodeError)
    (h : parseLeadBlock blocks tag = .error e) : e = .malformedSignalBlock := by
  unfold parseLeadBlock at h
  split at h
  · simp at h
  · rw [except_map_error_iff] at h
    exact leadBlockParser_error _ e h

theorem assembleLeads_error (blocks : List AliveCorBlock) (e : DecodeError)
    (h : assembleLeads blocks = .error e) : e = .malformedSignalBlock := by
  unfold assembleLeads at h
  cases h1 : parseLeadBlock blocks ecgTag with
  | error e1 =>
    simp only [h1, Except.error.injEq] at h
    subst h; exact parseLeadBlock_error _ _ _ h1
  | ok l1 =>
  simp only [h1] at h
  cases h2 : parseLeadBlock blocks ecg2Tag with
  | error e2 =>
    simp only [h2, Except.error.injEq] at h
    subst h; exact parseLeadBlock_error _ _ _ h2
  | ok l2 =>
  simp only [h2] at h
  cases h3 : parseLeadBlock blocks ecg3Tag with
  | error e3 =>
    simp only [h3, Except.error.injEq] at h
    subst h; exact parseLeadBlock_error _ _ _ h3
  | ok l3 =>
  simp only [h3] at h
  cases h4 : parseLeadBlock blocks ecg4Tag with
  | error e4 =>
    simp only [h4, Except.error.injEq] at h
    subst h; exact parseLeadBlock_error _ _ _ h4
  | ok l4 =>
  simp only [h4] at h
  cases h5 : parseLeadBlock blocks ecg5Tag with
  | error e5 =>
    simp only [h5, Except.error.injEq] at h
    subst h; exact parseLeadBlock_error _ _ _ h5
  | ok l5 =>
  simp only [h5] at h
  cases h6 : parseLeadBlock blocks ecg6Tag with
  | error e6 =>
    simp only [h6, Except.error.injEq] at h
    subst h; exact parseLeadBlock_error _ _ _ h6
  | ok l6 => simp [h6] at h

theorem leadBlockParser_spec_aux : ∀ l : Bytes,
    (l.length % 2 = 0 → leadBlockParser l = .ok (int16SeqLE l)) ∧
    (l.length % 2 = 1 → leadBlockParser l = .error .malformedSignalBlock)
  | [] => ⟨fun _ => rfl, fun h => by simp at h⟩
  | [_] => ⟨fun h => by simp at h, fun _ => rfl⟩
  | a :: b :: rest => by
    obtain ⟨h0, h1⟩ := leadBlockParser_spec_aux rest
    constructor
    · intro h
      have hr : rest.length % 2 = 0 := by simp only [List.length_cons] at h; omega
      simp [leadBlockParser, int16SeqLE, Except.map, h0 hr]
    · intro h
      have hr : rest.length % 2 = 1 := by simp only [List.length_cons] at h; omega
      simp [leadBlockParser, Except.map, h1 hr]

theorem annTicksParser_spec_aux : ∀ l : Bytes,
    (l.length % 6 = 0 → annTicksParser l = .ok (annTickSeq l)) ∧
    (l.length % 6 ≠ 0 → annTicksParser l = .error .malformedAnnotationBlock)
  | [] => ⟨fun _ => rfl, fun h => by simp at h⟩
  | [_] => ⟨fun h => by simp at h, fun _ => rfl⟩
  | [_, _] => ⟨fun h => by simp at h, fun _ => rfl⟩
  | [_, _, _] => ⟨fun h => by simp at h, fun _ => rfl⟩
  | [_, _, _, _] => ⟨fun h => by simp at h, fun _ => rfl⟩
  | [_, _, _, _, _] => ⟨fun h => by simp at h, fun _ => rfl⟩
  | b0 :: b1 :: b2 :: b3 :: b4 :: b5 :: rest => by
    obtain ⟨h0, h1⟩ := annTicksParser_spec_aux rest
    constructor
    · intro h
      have hr : rest.length % 6 = 0 := by simp only [List.length_cons] at h; omega
      simp [annTicksParser, annTickSeq, Except.map, h0 hr]
    · intro h
      have hr : rest.length % 6 ≠ 0 := by simp only [List.length_cons] at h; omega
      simp [annTicksParser, Except.map, h1 hr]

theorem findBlock_firstMatch (l₁ l₂ : List AliveCorBlock) (b : AliveCorBlock) (tag : Bytes)
    (hb : b.identifier = tag) (h : ∀ x ∈ l₁, x.identifier ≠ tag) :
    findBlock (l₁ ++ b :: l₂) tag = some b := by
  induction l₁ with
  | nil => simp [findBlock, List.find?, hb]
  | cons a t ih =>
    have ha : (a.identifier == tag) = false := by simp [h a (by simp)]
    simp only [List.cons_append, findBlock, List.find?, ha]
    exact ih fun x hx => h x (by simp [hx])

theorem findBlock_none (blocks : List AliveCorBlock) (tag : Bytes)
    (h : ∀ x ∈ blocks, x.identifier ≠ tag) : findBlock blocks tag = none := by
  induction blocks with
  | nil => rfl
  | cons a t ih =>
    have ha : (a.identifier == tag) = false := by simp [h a (by simp)]
    simp only [findBlock, List.find?, ha]
    exact ih fun x hx => h x (by simp [hx])

theorem parse_ok_inv (input : Bytes) (r : AliveCorEcg) (h : parse input = .ok r) :
    ∃ f, parseFileWithBufferBlocks input = .ok f ∧ assembleBlocks f.blocks = .ok r := by
  unfold parse at h
  cases hp : parseFileWithBufferBlocks input with
  | error e => simp [hp] at h
  | ok f =>
    simp only [hp] at h
    exact ⟨f, rfl, h⟩

theorem assembleBlocks_error_ne_info (blocks : List AliveCorBlock) (e : DecodeError)
    (h : assembleBlocks blocks = .error e) : e ≠ .malformedInfoBlock := by
  unfold assembleBlocks at h
  cases h1 : parseInfoBlock blocks with
  | error e1 =>
    simp only [h1, Except.error.injEq] at h
    subst h
    rw [parseInfoBlock_error _ _ h1]
    decide
  | ok info =>
  simp only [h1] at h
  cases h2 : parseFormatBlock blocks with
  | error e2 =>
    simp only [h2, Except.error.injEq] at h
    subst h
    rcases parseFormatBlock_error _ _ h2 with h2 | h2 <;> (rw [h2]; decide)
  | ok format =>
  simp only [h2] at h
  cases h3 : parseAnnotationBlock blocks with
  | error e3 =>
    simp only [h3, Except.error.injEq] at h
    subst h
    rw [parseAnnotationBlock_error _ _ h3]
    decide
  | ok ann =>
  simp only [h3] at h
  by_cases hf : format.ecgFormat = 1
  · simp only [hf] at h
    norm_num at h
    cases h4 : assembleLeads blocks with
    | error e4 =>
      simp only [h4, Except.error.injEq] at h
      subst h
      rw [assembleLeads_error _ _ h4]
      decide
    | ok leads => simp [h4] at h
  · simp only [if_pos hf] at h
    simp only [Except.error.injEq] at h
    subst h
    decide


theorem assembleBlocks_ok_fileVersion (blocks : List AliveCorBlock) (r : AliveCorEcg)
    (h : assembleBlocks blocks = .ok r) : r.fileVersion = "1.6" := by
  unfold assembleBlocks at h
  cases h1 : parseInfoBlock blocks with
  | error e1 => simp [h1] at h
  | ok info =>
  simp only [h1] at h
  cases h2 : parseFormatBlock blocks with
  | error e2 => simp [h2] at h
  | ok format =>
  simp only [h2] at h
  cases h3 : parseAnnotationBlock blocks with
  | error e3 => simp [h3] at h
  | ok ann =>
  simp only [h3] at h
  by_cases hf : format.ecgFormat = 1
  · simp only [hf] at h
    norm_num at h
    cases h4 : assembleLeads blocks with
    | error e4 => simp [h4] at h
    | ok leads =>
      simp only [h4, Except.ok.injEq] at h
      subst h; rfl
  · simp [hf] at h

set_option maxRecDepth 100000

/-! Claim theorems. -/

/-- C1: the file built from the signature, version 4, a `fmt ` block with
ecgFormat 1, 300 Hz, 1000 nV, flags byte 0x05 and reserved 0, a 264-byte
null-padded `info` block, and an `ecg ` block `64 00 38 FF 2C 01` decodes
successfully to a record with samplingRateHz 300, mainsFrequency 50, the
polarity flag set (the source keeps it as the raw numeric bit 1, which is
truthy in the host language), leadI = [100, -200, 300], no other leads and no
beat-mark data. -/
theorem c1_block_round_trip :
    parse c1File = .ok c1Record ∧
    c1Record.format.samplingRateHz = 300 ∧
    c1Record.format.mainsFrequency = 50 ∧
    jsTruthy c1Record.format.polarity ∧
    c1Record.format.polarity = 1 ∧
    c1Record.leads.leadI = some [100, -200, 300] ∧
    c1Record.leads.leadII = none ∧
    c1Record.leads.leadIII = none ∧
    c1Record.leads.aVR = none ∧
    c1Record.leads.aVL = none ∧
    c1Record.leads.aVF = none ∧
    c1Record.annot = none := by
  decide

/-- C2 counterexample: an input whose first 8 bytes differ from the
signature but whose bytes after the header are not a well-formed block
sequence fails with the container error, not with `invalidSignature`: the
source parses the whole container before checking the signature. -/
theorem c2_counterexample :
    c2BadTail.take 8 ≠ signatureBytes ∧
    parse c2BadTail = .error .truncatedBlock ∧
    parse c2BadTail ≠ .error .invalidSignature := by
  decide

/-- C2 amended: for every input whose first 8 bytes differ from
`41 4C 49 56 45 00 00 00` and whose remaining bytes do form a well-formed
container (the block-sequence parse succeeds), decoding fails with
`invalidSignature`. -/
theorem c2_invalid_signature (input : Bytes) (f : AliveCorFile)
    (hf : fileParser input = .ok f) (hsig : input.take 8 ≠ signatureBytes) :
    parse input = .error .invalidSignature := by
  have hs : f.signature ≠ signatureBytes := by
    rw [fileParser_ok input f hf]; exact hsig
  unfold parse parseFileWithBufferBlocks
  rw [hf]
  simp [hs]

/-- C2 amended, witness: a 12-byte input with a wrong signature, version 4
and an empty block sequence fails with `invalidSignature`. -/
theorem c2_invalid_signature_witness :
    parse c2WellFormed = .error .invalidSignature :=
  c2_invalid_signature c2WellFormed ⟨List.replicate 8 0, 4, []⟩ (by decide) (by decide)

/-- C3 counterexample: a container-valid file whose `fmt ` block has
ecgFormat 2 and which has no `info` block fails with `missingInfoBlock`, not
with `unsupportedFormat`: the source decodes the `info` block before it
checks the format code. -/
theorem c3_counterexample :
    fileParser c3File = .ok c3RawFile ∧
    parseFormatBlock c3RawFile.blocks = .ok c3Format ∧
    c3Format.ecgFormat = 2 ∧
    findBlock c3RawFile.blocks infoTag = none ∧
    parse c3File = .error .missingInfoBlock ∧
    parse c3File ≠ .error .unsupportedFormat := by
  decide

/-- C3 amended: the assembler locates and decodes the `info` block before it
checks the `fmt ` block's format code; for a container-valid input whose
`fmt ` block decodes with ecgFormat ≠ 1 (and whose `ann ` block, if any,
decodes), the decode fails with `unsupportedFormat` when the `info` block is
present and with `missingInfoBlock` when it is absent. -/
theorem c3_info_decoded_before_format_check (input : Bytes) (f : AliveCorFile)
    (format : AliveCorEcgFormat) (a : Option AliveCorEcgAnnot)
    (hfile : parseFileWithBufferBlocks input = .ok f)
    (hfmt : parseFormatBlock f.blocks = .ok format)
    (hne : format.ecgFormat ≠ 1)
    (hann : parseAnnotationBlock f.blocks = .ok a) :
    parse input = .error
      (if (findBlock f.blocks infoTag).isSome
        then DecodeError.unsupportedFormat else DecodeError.missingInfoBlock) := by
  unfold parse
  simp only [hfile]
  unfold assembleBlocks
  cases hi : findBlock f.blocks infoTag with
  | none => simp [parseInfoBlock, hi]
  | some b =>
    simp only [parseInfoBlock, hi]
    simp only [hfmt, hann]
    simp [hne]

/-- C3 amended, witness: applied to the concrete file with ecgFormat 2 and
no `info` block, the decode fails with `missingInfoBlock`. -/
theorem c3_info_decoded_before_format_check_witness :
    parse c3File = .error .missingInfoBlock := by
  have h := c3_info_decoded_before_format_check c3File c3RawFile c3Format none
    (by decide) (by decide) (by decide) (by decide)
  simpa using h

/-- C4 counterexample: a container-valid file whose `info` block content is
0 bytes (shorter than 264) decodes successfully, with empty text fields,
instead of failing with `malformedInfoBlock`. -/
theorem c4_counterexample :
    fileParser c4File = .ok c4RawFile ∧
    findBlock c4RawFile.blocks infoTag = some ⟨infoTag, 0, [], 0⟩ ∧
    (⟨infoTag, 0, [], 0⟩ : AliveCorBlock).contents.length < 264 ∧
    parse c4File = .ok c4Record ∧
    parse c4File ≠ .error .malformedInfoBlock := by
  decide

/-- C4 amended: no input ever fails with `malformedInfoBlock`: the info
decoder's fixed-width string reads clamp at the end of the content, so an
`info` block shorter than 264 bytes decodes successfully with truncated or
empty text fields. -/
theorem c4_never_malformed_info (input : Bytes) :
    parse input ≠ .error .malformedInfoBlock := by
  intro h
  unfold parse at h
  cases hp : parseFileWithBufferBlocks input with
  | error e =>
    simp only [hp, Except.error.injEq] at h
    subst h
    rcases parseFileWithBufferBlocks_error input _ hp with h | h | h <;> cases h
  | ok f =>
    simp only [hp] at h
    exact assembleBlocks_error_ne_info f.blocks _ h rfl

/-- C5: the signal decoder returns the ordered sequence of signed 16-bit
little-endian integers of the whole content when the content length is even,
and fails with `malformedSignalBlock` when it is odd. -/
theorem c5_signal_decoder (l : Bytes) :
    (l.length % 2 = 0 → leadBlockParser l = .ok (int16SeqLE l)) ∧
    (l.length % 2 = 1 → leadBlockParser l = .error .malformedSignalBlock) :=
  leadBlockParser_spec_aux l

/-- C5 witness: the decoder maps `64 00 38 FF 2C 01` to `[100, -200, 300]`
and fails on the 5-byte odd-length content. -/
theorem c5_signal_decoder_witness :
    leadBlockParser [0x64, 0x00, 0x38, 0xFF, 0x2C, 0x01] = .ok [100, -200, 300] ∧
    leadBlockParser [0x64, 0x00, 0x38, 0xFF, 0x2C] = .error .malformedSignalBlock :=
  ⟨(c5_signal_decoder [0x64, 0x00, 0x38, 0xFF, 0x2C, 0x01]).1 (by decide),
    (c5_signal_decoder [0x64, 0x00, 0x38, 0xFF, 0x2C]).2 (by decide)⟩

/-- C6: the beat-mark decoder reads a 4-byte little-endian tick frequency
and then repeating 6-byte records (4-byte little-endian unsigned offset,
2-byte little-endian unsigned beatType) until the content is exhausted; when
the content length minus 4 is not a multiple of 6, it fails with
`malformedAnnotationBlock`. -/
theorem c6_ann_decoder (f0 f1 f2 f3 : Nat) (rest : Bytes) :
    (rest.length % 6 = 0 →
      annBlockParser (f0 :: f1 :: f2 :: f3 :: rest) =
        .ok ⟨u32le4 f0 f1 f2 f3, annTickSeq rest⟩) ∧
    (rest.length % 6 ≠ 0 →
      annBlockParser (f0 :: f1 :: f2 :: f3 :: rest) =
        .error .malformedAnnotationBlock) := by
  obtain ⟨h0, h1⟩ := annTicksParser_spec_aux rest
  exact ⟨fun h => by simp [annBlockParser, Except.map, h0 h],
    fun h => by simp [annBlockParser, Except.map, h1 h]⟩

/-- C6 witness: a block of 4 + 6×2 bytes decodes to its two ticks, and the
same block with 3 trailing bytes (4 + 6×2 + 3) fails. -/
theorem c6_ann_decoder_witness :
    annBlockParser [1, 0, 0, 0, 10, 0, 0, 0, 5, 0, 20, 0, 0, 0, 6, 0] =
      .ok ⟨1, [⟨10, 5⟩, ⟨20, 6⟩]⟩ ∧
    annBlockParser [1, 0, 0, 0, 10, 0, 0, 0, 5, 0, 20, 0, 0, 0, 6, 0, 9, 9, 9] =
      .error .malformedAnnotationBlock :=
  ⟨(c6_ann_decoder 1 0 0 0 [10, 0, 0, 0, 5, 0, 20, 0, 0, 0, 6, 0]).1 (by decide),
    (c6_ann_decoder 1 0 0 0 [10, 0, 0, 0, 5, 0, 20, 0, 0, 0, 6, 0, 9, 9, 9]).2 (by decide)⟩

/-- C7: block lookup returns the first block in file order whose 4-byte
identifier equals the requested tag exactly, and `none` when no block
matches; and inserting a block with an unrecognized identifier anywhere into
the block sequence does not change the decoded output. -/
theorem c7_find_block_first_match :
    (∀ (l₁ l₂ : List AliveCorBlock) (b : AliveCorBlock) (tag : Bytes),
      b.identifier = tag → (∀ x ∈ l₁, x.identifier ≠ tag) →
      findBlock (l₁ ++ b :: l₂) tag = some b) ∧
    (∀ (blocks : List AliveCorBlock) (tag : Bytes),
      (∀ x ∈ blocks, x.identifier ≠ tag) → findBlock blocks tag = none) ∧
    (∀ (l₁ l₂ : List AliveCorBlock) (x : AliveCorBlock),
      x.identifier ∉ recognizedTags →
      assembleBlocks (l₁ ++ x :: l₂) = assembleBlocks (l₁ ++ l₂)) := by
  refine ⟨findBlock_firstMatch, findBlock_none, ?_⟩
  intro l₁ l₂ x hx
  have hmem : ∀ tag ∈ recognizedTags, x.identifier ≠ tag := fun tag ht hc => hx (hc ▸ ht)
  have hi := findBlock_skip l₁ l₂ x infoTag (hmem _ (by simp [recognizedTags]))
  have hf := findBlock_skip l₁ l₂ x fmtTag (hmem _ (by simp [recognizedTags]))
  have ha := findBlock_skip l₁ l₂ x annTag (hmem _ (by simp [recognizedTags]))
  have h1 := findBlock_skip l₁ l₂ x ecgTag (hmem _ (by simp [recognizedTags]))
  have h2 := findBlock_skip l₁ l₂ x ecg2Tag (hmem _ (by simp [recognizedTags]))
  have h3 := findBlock_skip l₁ l₂ x ecg3Tag (hmem _ (by simp [recognizedTags]))
  have h4 := findBlock_skip l₁ l₂ x ecg4Tag (hmem _ (by simp [recognizedTags]))
  have h5 := findBlock_skip l₁ l₂ x ecg5Tag (hmem _ (by simp [recognizedTags]))
  have h6 := findBlock_skip l₁ l₂ x ecg6Tag (hmem _ (by simp [recognizedTags]))
  unfold assembleBlocks parseInfoBlock parseFormatBlock parseAnnotationBlock
    assembleLeads parseLeadBlock
  rw [hi, hf, ha, h1, h2, h3, h4, h5, h6]

/-- C7 witness: the lookup skips a leading `xtra` block and finds the `info`
block, returns `none` when only the `xtra` block is present, and removing an
interspersed `xtra` block does not change the assembled output. -/
theorem c7_find_block_first_match_witness :
    findBlock [xtraBlock, ⟨infoTag, 0, [], 0⟩] infoTag = some ⟨infoTag, 0, [], 0⟩ ∧
    findBlock [xtraBlock] infoTag = none ∧
    assembleBlocks [xtraBlock, ⟨fmtTag, 8, [1, 44, 1, 232, 3, 5, 0, 0], 0⟩,
        ⟨infoTag, 0, [], 0⟩] =
      assembleBlocks [⟨fmtTag, 8, [1, 44, 1, 232, 3, 5, 0, 0], 0⟩, ⟨infoTag, 0, [], 0⟩] :=
  ⟨c7_find_block_first_match.1 [xtraBlock] [] ⟨infoTag, 0, [], 0⟩ infoTag rfl (by decide),
    c7_find_block_first_match.2.1 [xtraBlock] infoTag (by decide),
    c7_find_block_first_match.2.2 []
      [⟨fmtTag, 8, [1, 44, 1, 232, 3, 5, 0, 0], 0⟩, ⟨infoTag, 0, [], 0⟩] xtraBlock (by decide)⟩

/-- C8: decoding is deterministic: identical input byte sequences produce
identical results (`parse` is a pure function of the input bytes). -/
theorem c8_deterministic (b₁ b₂ : Bytes) (h : b₁ = b₂) : parse b₁ = parse b₂ := by
  rw [h]

/-- C8 witness: two runs on the same concrete bytes agree. -/
theorem c8_deterministic_witness : parse c1File = parse c1File :=
  c8_deterministic c1File c1File rfl

/-- C9: every successful decode returns a record whose fileVersion is the
constant "1.6", and its container version field was necessarily 4. -/
theorem c9_file_version (input : Bytes) (r : AliveCorEcg) (h : parse input = .ok r) :
    r.fileVersion = "1.6" ∧
    ∃ f, parseFileWithBufferBlocks input = .ok f ∧ f.version = 4 := by
  obtain ⟨f, hf, hab⟩ := parse_ok_inv input r h
  exact ⟨assembleBlocks_ok_fileVersion _ _ hab, f, hf,
    (parseFileWithBufferBlocks_ok _ _ hf).2.2⟩

/-- C9 witness: the concrete successful decode of `c4File` has fileVersion
"1.6" and container version 4. -/
theorem c9_file_version_witness :
    c4Record.fileVersion = "1.6" ∧
    ∃ f, parseFileWithBufferBlocks c4File = .ok f ∧ f.version = 4 :=
  c9_file_version c4File c4Record (by decide)

/-- C10: on an otherwise-valid input whose `ecg ` block has zero-length
content, decoding succeeds and leadI is present as an empty sample list (a
zero-length lead block is not treated like an absent one: the source's
filter keeps the empty—truthy—array and drops only `undefined`). -/
theorem c10_zero_length_lead (input : Bytes) (f : AliveCorFile)
    (info : AliveCorEcgInfo) (format : AliveCorEcgFormat) (a : Option AliveCorEcgAnnot)
    (blk : AliveCorBlock) (o2 o3 o4 o5 o6 : Option (List Int))
    (hfile : parseFileWithBufferBlocks input = .ok f)
    (hinfo : parseInfoBlock f.blocks = .ok info)
    (hfmt : parseFormatBlock f.blocks = .ok format)
    (hone : format.ecgFormat = 1)
    (hann : parseAnnotationBlock f.blocks = .ok a)
    (hecg : findBlock f.blocks ecgTag = some blk)
    (hempty : blk.contents = [])
    (h2 : parseLeadBlock f.blocks ecg2Tag = .ok o2)
    (h3 : parseLeadBlock f.blocks ecg3Tag = .ok o3)
    (h4 : parseLeadBlock f.blocks ecg4Tag = .ok o4)
    (h5 : parseLeadBlock f.blocks ecg5Tag = .ok o5)
    (h6 : parseLeadBlock f.blocks ecg6Tag = .ok o6) :
    ∃ r, parse input = .ok r ∧ r.leads.leadI = some [] := by
  have hl1 : parseLeadBlock f.blocks ecgTag = .ok (some []) := by
    simp [parseLeadBlock, hecg, hempty, leadBlockParser, Except.map]
  have hl : assembleLeads f.blocks = .ok ⟨some [], o2, o3, o4, o5, o6⟩ := by
    simp only [assembleLeads, hl1, h2, h3, h4, h5, h6]
  refine ⟨⟨"1.6", info, format, ⟨some [], o2, o3, o4, o5, o6⟩, a⟩, ?_, rfl⟩
  unfold parse
  simp only [hfile]
  unfold assembleBlocks
  simp only [hinfo, hfmt, hann, hone, hl]
  norm_num

/-- C10 witness: the concrete file with a zero-length `ecg ` block decodes
with leadI present and empty. -/
theorem c10_zero_length_lead_witness :
    ∃ r, parse c10File = .ok r ∧ r.leads.leadI = some [] :=
  c10_zero_length_lead c10File c10RawFile ⟨[], [], [], [], [], [], []⟩ fmt1Record none
    ⟨ecgTag, 0, [], 0⟩ none none none none none
    (by decide) (by decide) (by decide) (by decide) (by decide) (by decide)
    (by decide) (by decide) (by decide) (by decide) (by decide) (by decide)


end AliveCor
